import Mathlib

/-!
# Verification of the dual-8259 PIC interrupt subsystem (platform/pc/interrupts.c)

A shallow embedding of the interrupt-controller subsystem: the PIC hardware
driver (`map`, `issueEOI`), the interrupt line controller (`enable` with its
cascade bookkeeping), and the dispatcher (`mask_interrupt`, `unmask_interrupt`,
`register_int_handler`, `platform_irq`).

Hardware port I/O is modelled by a `Pic` record holding the two 8-bit mask
registers (a data-port write latches the byte; a data-port read returns the
latched byte) together with the two cached mask bytes `irqMask[0]`/`irqMask[1]`,
and every operation additionally returns the list of `outp` port writes it
performed, in order.  Fatal conditions (`panic`, failed `DEBUG_ASSERT`) are
modelled as `none`.  The spin lock is modelled by a counter of acquisitions.
-/

namespace PcPic

/-- Modelled from the spec: the master controller's vector base
(`PIC1_BASE` from the platform header, which is not part of the shown
sources).  The spec fixes the first hardware-usable vector at 0x20. -/
def PIC1_BASE : Nat := 0x20

/-- Modelled from the spec: the slave controller's vector base
(`PIC2_BASE` from the platform header): the eight slave lines follow
directly after the eight master lines. -/
def PIC2_BASE : Nat := 0x28

/-- Modelled from the spec: the vector of the master line wired to the
slave's cascade output (`INT_PIC2` from the platform header): bit 2 of the
master mask, i.e. vector `PIC1_BASE + 2`. -/
def INT_PIC2 : Nat := 0x22

/-- Modelled from the spec: the size of the vector space `[0, VECTOR_COUNT)`
(`INT_VECTORS` from the platform header): covers both hardware ranges and
at least one software-only vector above them. -/
def INT_VECTORS : Nat := 0x31

/-- `#define PIC1 0x20` — master controller's command port; `PIC1 + 1` is its
data/mask port. -/
def PIC1 : Nat := 0x20

/-- `#define PIC2 0xA0` — slave controller's command port; `PIC2 + 1` is its
data/mask port. -/
def PIC2 : Nat := 0xA0

/-- `#define ICW1 0x11`. -/
def ICW1 : Nat := 0x11

/-- One `outp(port, value)` call, recorded in program order. -/
structure PortWrite where
  port : Nat
  value : Nat
deriving DecidableEq, Repr

/-- The controller-visible state: the two hardware mask registers (the byte a
read of the data port returns) and the two cached mask bytes `irqMask[0]`
(master) and `irqMask[1]` (slave). -/
structure Pic where
  masterReg : Nat
  slaveReg : Nat
  irqMask0 : Nat
  irqMask1 : Nat
deriving DecidableEq, Repr

/-- `outp`: a write to a controller's data port latches the low byte into that
controller's mask register; writes to the command ports do not affect the mask
registers. -/
def outp (port value : Nat) (s : Pic) : Pic :=
  if port = PIC1 + 1 then { s with masterReg := value % 256 }
  else if port = PIC2 + 1 then { s with slaveReg := value % 256 }
  else s

/-- `inp`: a read of a controller's data port returns the latched mask
register. -/
def inp (port : Nat) (s : Pic) : Nat :=
  if port = PIC1 + 1 then s.masterReg
  else if port = PIC2 + 1 then s.slaveReg
  else 0

/-- The read–modify–write–re-read sequence the source repeats for the master
controller: `irqMask[0] = inp(PIC1+1); irqMask[0] op= …; outp(PIC1+1,
irqMask[0]); irqMask[0] = inp(PIC1+1);`. -/
def rmwMaster (f : Nat → Nat) (s : Pic) : Pic × List PortWrite :=
  let m1 := inp (PIC1 + 1) s
  let m2 := f m1
  let s1 := outp (PIC1 + 1) m2 { s with irqMask0 := m2 }
  let m3 := inp (PIC1 + 1) s1
  ({ s1 with irqMask0 := m3 }, [⟨PIC1 + 1, m2⟩])

/-- The read–modify–write–re-read sequence the source repeats for the slave
controller. -/
def rmwSlave (f : Nat → Nat) (s : Pic) : Pic × List PortWrite :=
  let m1 := inp (PIC2 + 1) s
  let m2 := f m1
  let s1 := outp (PIC2 + 1) m2 { s with irqMask1 := m2 }
  let m3 := inp (PIC2 + 1) s1
  ({ s1 with irqMask1 := m3 }, [⟨PIC2 + 1, m2⟩])

/-- The cascade-bit block at the end of `enable`'s slave branch:
`bit = 1 << (INT_PIC2 - PIC1_BASE); if (irqMask[1] != 0xff && (irqMask[0] &
bit)) { clear bit } else if (irqMask[1] == 0 && !(irqMask[0] & bit)) { set
bit }`. -/
def cascade (s : Pic) : Pic × List PortWrite :=
  let bit := (1 <<< (INT_PIC2 - PIC1_BASE)) % 256
  if s.irqMask1 ≠ 0xff ∧ s.irqMask0 &&& bit ≠ 0 then
    rmwMaster (fun m => m &&& (255 ^^^ bit)) s
  else if s.irqMask1 = 0 ∧ s.irqMask0 &&& bit = 0 then
    rmwMaster (fun m => m ||| bit) s
  else (s, [])

/-- `static void enable(unsigned int vector, bool enable)`: enable/disable one
hardware line; no-op outside both 8-vector hardware ranges; on the slave
branch, run the cascade block afterwards. -/
def enable (vector : Nat) (en : Bool) (s : Pic) : Pic × List PortWrite :=
  if PIC1_BASE ≤ vector ∧ vector < PIC1_BASE + 8 then
    let bit := (1 <<< (vector - PIC1_BASE)) % 256
    if en = true ∧ s.irqMask0 &&& bit ≠ 0 then
      rmwMaster (fun m => m &&& (255 ^^^ bit)) s
    else if en = false ∧ s.irqMask0 &&& bit = 0 then
      rmwMaster (fun m => m ||| bit) s
    else (s, [])
  else if PIC2_BASE ≤ vector ∧ vector < PIC2_BASE + 8 then
    let bit := (1 <<< (vector - PIC2_BASE)) % 256
    let r1 :=
      if en = true ∧ s.irqMask1 &&& bit ≠ 0 then
        rmwSlave (fun m => m &&& (255 ^^^ bit)) s
      else if en = false ∧ s.irqMask1 &&& bit = 0 then
        rmwSlave (fun m => m ||| bit) s
      else (s, [])
    let r2 := cascade r1.1
    (r2.1, r1.2 ++ r2.2)
  else
    (s, [])

/-- `static void map(uint32_t pic1, uint32_t pic2)`: the ICW1..ICW4 remap
sequence to both controllers, then `0xff` to both mask registers, then
`irqMask[0] = irqMask[1] = 0xff`. -/
def map (pic1 pic2 : Nat) (s : Pic) : Pic × List PortWrite :=
  let writes : List PortWrite :=
    [⟨PIC1, ICW1⟩, ⟨PIC2, ICW1⟩,
     ⟨PIC1 + 1, pic1⟩, ⟨PIC2 + 1, pic2⟩,
     ⟨PIC1 + 1, 4⟩, ⟨PIC2 + 1, 2⟩,
     ⟨PIC1 + 1, 5⟩, ⟨PIC2 + 1, 1⟩,
     ⟨PIC1 + 1, 0xff⟩, ⟨PIC2 + 1, 0xff⟩]
  let s1 := writes.foldl (fun st w => outp w.port w.value st) s
  ({ s1 with irqMask0 := 0xff, irqMask1 := 0xff }, writes)

/-- `static void issueEOI(unsigned int vector)`: acknowledge on the master
only for a master-range vector; on the slave and then the master for a
slave-range vector; nothing otherwise. -/
def issueEOI (vector : Nat) : List PortWrite :=
  if PIC1_BASE ≤ vector ∧ vector ≤ PIC1_BASE + 7 then
    [⟨PIC1, 0x20⟩]
  else if PIC2_BASE ≤ vector ∧ vector ≤ PIC2_BASE + 7 then
    [⟨PIC2, 0x20⟩, ⟨PIC1, 0x20⟩]
  else
    []

/-- `enum handler_return`. -/
inductive HandlerReturn where
  | noReschedule
  | reschedule
deriving DecidableEq, Repr

/-- `struct int_handler_struct { int_handler handler; void *arg; }` — the
handler is a nullable function pointer; the opaque `void *arg` is modelled as
a `Nat`. -/
structure IntHandlerStruct where
  handler : Option (Nat → HandlerReturn)
  arg : Nat

/-- The subsystem's whole mutable state: the PIC state, the handler table
`int_handler_table[INT_VECTORS]`, and a counter of spin-lock acquisitions
(incremented each time `spin_lock_irqsave` runs). -/
structure IntState where
  pic : Pic
  handlers : List IntHandlerStruct
  lockCount : Nat

/-- `status_t` results of the mask/unmask calls. -/
inductive Status where
  | noError
  | errInvalidArgs
deriving DecidableEq, Repr

/-- `void platform_init_interrupts(void)`: `map(PIC1_BASE, PIC2_BASE)`. -/
def platform_init_interrupts (s : IntState) : IntState × List PortWrite :=
  let r := map PIC1_BASE PIC2_BASE s.pic
  ({ s with pic := r.1 }, r.2)

/-- `status_t mask_interrupt(unsigned int vector)`: reject out-of-range
vectors without touching anything; otherwise take the lock, `enable(vector,
false)`, release, return `NO_ERROR`. -/
def mask_interrupt (vector : Nat) (s : IntState) :
    Status × IntState × List PortWrite :=
  if vector ≥ INT_VECTORS then (Status.errInvalidArgs, s, [])
  else
    let r := enable vector false s.pic
    (Status.noError,
     { s with pic := r.1, lockCount := s.lockCount + 1 }, r.2)

/-- `status_t unmask_interrupt(unsigned int vector)`: reject out-of-range
vectors without touching anything; otherwise take the lock, `enable(vector,
true)`, release, return `NO_ERROR`. -/
def unmask_interrupt (vector : Nat) (s : IntState) :
    Status × IntState × List PortWrite :=
  if vector ≥ INT_VECTORS then (Status.errInvalidArgs, s, [])
  else
    let r := enable vector true s.pic
    (Status.noError,
     { s with pic := r.1, lockCount := s.lockCount + 1 }, r.2)

/-- `void register_int_handler(unsigned int vector, int_handler handler,
void *arg)`: panics (`none`) on an out-of-range vector; otherwise stores the
arg/handler pair under the lock. -/
def register_int_handler (vector : Nat) (handler : Option (Nat → HandlerReturn))
    (arg : Nat) (s : IntState) : Option IntState :=
  if vector ≥ INT_VECTORS then none
  else
    some { s with
            handlers := s.handlers.set vector ⟨handler, arg⟩,
            lockCount := s.lockCount + 1 }

/-- Observable events of a dispatch: a handler invocation (with the stored
`arg` it was passed) or a port write. -/
inductive Event where
  | callHandler (arg : Nat)
  | out (w : PortWrite)
deriving DecidableEq, Repr

/-- `enum handler_return platform_irq(x86_iframe_t *frame)`: the
`DEBUG_ASSERT(vector >= 0x20)` failure is fatal (`none`); otherwise look up
the handler table without the lock, invoke the handler if present, then issue
EOI, and return the handler's reschedule decision (default
`INT_NO_RESCHEDULE`). -/
def platform_irq (vector : Nat) (s : IntState) :
    Option (HandlerReturn × List Event) :=
  if vector < 0x20 then none
  else
    let entry := s.handlers.getD vector ⟨none, 0⟩
    let r : HandlerReturn × List Event :=
      match entry.handler with
      | some h => (h entry.arg, [Event.callHandler entry.arg])
      | none => (HandlerReturn.noReschedule, [])
    some (r.1, r.2 ++ (issueEOI vector).map Event.out)

/-- The PIC-state invariant every reachable state satisfies: each cached mask
byte equals its (8-bit) hardware register — the code re-reads the register
into the cache after every write. -/
def PicSync (p : Pic) : Prop :=
  p.irqMask0 = p.masterReg ∧ p.irqMask1 = p.slaveReg
    ∧ p.masterReg < 256 ∧ p.slaveReg < 256

/-- The state right after boot: zeroed BSS, then `platform_init_interrupts`. -/
def initState : IntState :=
  (platform_init_interrupts
    { pic := ⟨0, 0, 0, 0⟩,
      handlers := List.replicate INT_VECTORS ⟨none, 0⟩,
      lockCount := 0 }).1

/-- The state after unmasking all eight slave lines in order from the boot
state; the last call in the sequence is `unmask_interrupt 0x2f`. -/
def unmaskAllSlave : IntState :=
  [0x28, 0x29, 0x2a, 0x2b, 0x2c, 0x2d, 0x2e, 0x2f].foldl
    (fun st v => (unmask_interrupt v st).2.1) initState

/-- The state produced by registering a handler (context 7) at vector 0 in the
boot state. -/
def lowVectorState : IntState :=
  { initState with
      handlers :=
        initState.handlers.set 0 ⟨some (fun _ => HandlerReturn.reschedule), 7⟩,
      lockCount := initState.lockCount + 1 }

/-- C6: `issueEOI` acknowledges the master only for a master-range vector,
the slave strictly before the master for a slave-range vector, and nothing
for a vector outside both hardware ranges. -/
theorem C6_eoi_routing (v : Nat) :
    (PIC1_BASE ≤ v ∧ v ≤ PIC1_BASE + 7 →
      issueEOI v = [⟨PIC1, 0x20⟩])
    ∧ (PIC2_BASE ≤ v ∧ v ≤ PIC2_BASE + 7 →
      issueEOI v = [⟨PIC2, 0x20⟩, ⟨PIC1, 0x20⟩])
    ∧ (¬(PIC1_BASE ≤ v ∧ v ≤ PIC1_BASE + 7) →
       ¬(PIC2_BASE ≤ v ∧ v ≤ PIC2_BASE + 7) →
      issueEOI v = []) := by
  refine ⟨fun h => ?_, fun h => ?_, fun h1 h2 => ?_⟩
  · simp only [issueEOI, if_pos h]
  · have hm : ¬(PIC1_BASE ≤ v ∧ v ≤ PIC1_BASE + 7) := by
      simp only [PIC1_BASE, PIC2_BASE] at h ⊢
      omega
    simp only [issueEOI, if_neg hm, if_pos h]
  · simp only [issueEOI, if_neg h1, if_neg h2]

/-- Witness for C6 at the slave-range vector 0x28. -/
theorem C6_eoi_routing_witness :
    issueEOI 0x28 = [⟨PIC2, 0x20⟩, ⟨PIC1, 0x20⟩] :=
  (C6_eoi_routing 0x28).2.1 ⟨by decide, by decide⟩

/-- C7: after `platform_init_interrupts` both cached mask bytes are 0xff,
both hardware mask registers hold 0xff, and 0xff was written to both
controllers' mask (data) ports. -/
theorem C7_init_all_masked (s : IntState) :
    ((platform_init_interrupts s).1.pic.irqMask0 = 0xff
      ∧ (platform_init_interrupts s).1.pic.irqMask1 = 0xff)
    ∧ ((platform_init_interrupts s).1.pic.masterReg = 0xff
      ∧ (platform_init_interrupts s).1.pic.slaveReg = 0xff)
    ∧ (PortWrite.mk (PIC1 + 1) 0xff ∈ (platform_init_interrupts s).2
      ∧ PortWrite.mk (PIC2 + 1) 0xff ∈ (platform_init_interrupts s).2) := by
  refine ⟨⟨rfl, rfl⟩, ⟨rfl, rfl⟩, ?_, ?_⟩ <;>
    simp [platform_init_interrupts, map]

/-- C9: registration with an out-of-range vector panics (`none`) rather than
returning, and dispatch of a vector below 0x20 is a fatal assertion failure
(`none`); neither touches the handler table or any other state. -/
theorem C9_fatal_programming_errors (v w : Nat)
    (hv : INT_VECTORS ≤ v) (hw : w < 0x20)
    (hfn : Option (Nat → HandlerReturn)) (arg : Nat) (s : IntState) :
    register_int_handler v hfn arg s = none ∧ platform_irq w s = none := by
  constructor
  · simp only [register_int_handler, ge_iff_le, if_pos hv]
  · simp only [platform_irq, if_pos hw]

/-- Witness for C9 at vector 0x31 (registration) and vector 0 (dispatch). -/
theorem C9_fatal_programming_errors_witness :
    register_int_handler 0x31 none 0 initState = none
    ∧ platform_irq 0 initState = none :=
  C9_fatal_programming_errors 0x31 0 (by decide) (by decide) none 0 initState

/-- C3: `mask_interrupt`/`unmask_interrupt` return the invalid-argument error
exactly for vectors ≥ `INT_VECTORS`, in which case the whole state (caches,
registers, handler table, lock counter) is returned untouched and no port
write happens; every in-range vector gets `NO_ERROR`. -/
theorem C3_range_check (v : Nat) (s : IntState) :
    ((mask_interrupt v s).1 = Status.errInvalidArgs ↔ INT_VECTORS ≤ v)
    ∧ ((unmask_interrupt v s).1 = Status.errInvalidArgs ↔ INT_VECTORS ≤ v)
    ∧ (INT_VECTORS ≤ v →
        mask_interrupt v s = (Status.errInvalidArgs, s, [])
        ∧ unmask_interrupt v s = (Status.errInvalidArgs, s, []))
    ∧ (v < INT_VECTORS →
        (mask_interrupt v s).1 = Status.noError
        ∧ (unmask_interrupt v s).1 = Status.noError) := by
  by_cases h : INT_VECTORS ≤ v
  · simp [mask_interrupt, unmask_interrupt, h, Nat.not_lt.mpr h]
  · simp [mask_interrupt, unmask_interrupt, h, Nat.lt_of_not_le h]

/-- Witness for C3: vector 0x31 (= `INT_VECTORS`) is rejected with no state
change, vector 5 succeeds. -/
theorem C3_range_check_witness :
    mask_interrupt 0x31 initState = (Status.errInvalidArgs, initState, [])
    ∧ (mask_interrupt 0x05 initState).1 = Status.noError :=
  ⟨((C3_range_check 0x31 initState).2.2.1 (by decide)).1,
   ((C3_range_check 0x05 initState).2.2.2 (by decide)).1⟩

/-- C8: an in-range vector outside both hardware ranges is accepted with
`NO_ERROR` while the PIC state, the handler table and the port-write trace
show a pure no-op (only the lock was taken and released). -/
theorem C8_no_hw_vector_noop (v : Nat) (s : IntState) (h1 : v < INT_VECTORS)
    (h2 : ¬(PIC1_BASE ≤ v ∧ v < PIC1_BASE + 8))
    (h3 : ¬(PIC2_BASE ≤ v ∧ v < PIC2_BASE + 8)) :
    mask_interrupt v s
      = (Status.noError, { s with lockCount := s.lockCount + 1 }, [])
    ∧ unmask_interrupt v s
      = (Status.noError, { s with lockCount := s.lockCount + 1 }, []) := by
  obtain ⟨p, hs, lc⟩ := s
  constructor <;>
    simp [mask_interrupt, unmask_interrupt, enable, h2, h3, Nat.not_le.mpr h1]

/-- Witness for C8 at the software-only vector 0x30. -/
theorem C8_no_hw_vector_noop_witness :
    mask_interrupt 0x30 initState
      = (Status.noError, { initState with lockCount := initState.lockCount + 1 }, []) :=
  (C8_no_hw_vector_noop 0x30 initState (by decide) (by decide) (by decide)).1

/-- C1 fails on this code: after `unmask_interrupt 0x28` then
`mask_interrupt 0x28` from the boot state, the slave mask is back to 0xff
(every slave line disabled) yet bit 2 of the master's cached mask and of the
master's mask register stays clear — the cascade bit is not re-set, because
the source's re-set condition tests `irqMask[1] == 0` instead of
`irqMask[1] == 0xff`. -/
theorem C1_cascade_invariant_violated :
    (mask_interrupt 0x28 (unmask_interrupt 0x28 initState).2.1).2.1.pic.irqMask1
      = 0xff
    ∧ (mask_interrupt 0x28 (unmask_interrupt 0x28 initState).2.1).2.1.pic.irqMask0
      = 0xfb
    ∧ (mask_interrupt 0x28 (unmask_interrupt 0x28 initState).2.1).2.1.pic.masterReg
      = 0xfb := by
  decide

/-- C2 fails on this code: after unmasking all eight slave lines (the last
call being `unmask_interrupt 0x2f`), the immediately repeated
`unmask_interrupt 0x2f` still returns `NO_ERROR` but performs a hardware
write (0xfb to the master's mask port 0x21): the broken cascade re-set
condition makes the master's cascade bit oscillate on every slave-range
call. -/
theorem C2_repeated_call_writes :
    (unmask_interrupt 0x2f unmaskAllSlave).1 = Status.noError
    ∧ (unmask_interrupt 0x2f unmaskAllSlave).2.2 = [⟨PIC1 + 1, 0xfb⟩] := by
  decide

/-- C4 counterexample: for master-range vector 0x20 starting from a state in
which line 0 is already enabled (master mask register 0xfe), `unmask(0x20)`
then `mask(0x20)` leaves the master's mask register and cache at 0xff — not
the pre-unmask value 0xfe — so the round-trip claim fails without the
premise that the line was masked beforehand. -/
theorem C4_roundtrip_counterexample :
    (unmask_interrupt 0x20 initState).2.1.pic.masterReg = 0xfe
    ∧ (mask_interrupt 0x20
        (unmask_interrupt 0x20
          (unmask_interrupt 0x20 initState).2.1).2.1).2.1.pic.masterReg = 0xff
    ∧ (mask_interrupt 0x20
        (unmask_interrupt 0x20
          (unmask_interrupt 0x20 initState).2.1).2.1).2.1.pic.irqMask0 = 0xff := by
  decide

/-- C5 counterexample: vector 0 is in `[0, INT_VECTORS)`, registration at it
succeeds, but dispatching vector 0 hits the fatal `DEBUG_ASSERT(vector >=
0x20)` (`none`): the handler is never invoked and no EOI is issued, so the
claim does not hold on all of `[0, VECTOR_COUNT)`. -/
theorem C5_low_vector_counterexample :
    register_int_handler 0 (some (fun _ => HandlerReturn.reschedule)) 7 initState
      = some lowVectorState
    ∧ platform_irq 0 lowVectorState = none :=
  ⟨rfl, rfl⟩

/-! ### Bit-level helper lemmas for the 8-bit mask bytes -/

set_option maxRecDepth 10000

/-- Clearing a set bit of an 8-bit value and then setting it again restores
the value. -/
theorem restore_bit :
    ∀ m < 256, ∀ k < 8,
      m &&& ((1 <<< k) % 256) ≠ 0 →
      (m &&& (255 ^^^ (1 <<< k) % 256)) ||| ((1 <<< k) % 256) = m := by
  decide

/-- The complement byte of a line bit has that bit clear. -/
theorem maskByte_bit_zero :
    ∀ k < 8, (255 ^^^ (1 <<< k) % 256) &&& ((1 <<< k) % 256) = 0 := by
  decide

/-- The complement byte of a line bit is an 8-bit value. -/
theorem maskByte_lt : ∀ k < 8, (255 ^^^ (1 <<< k) % 256) < 256 := by
  decide

/-- After clearing bit `k`, bit `k` tests zero. -/
theorem cleared_bit (m k : Nat) (hk : k < 8) :
    (m &&& (255 ^^^ (1 <<< k) % 256)) &&& ((1 <<< k) % 256) = 0 := by
  rw [Nat.and_assoc, maskByte_bit_zero k hk, Nat.and_zero]

/-! ### Shape lemmas for the read–modify–write helpers and `enable` -/

/-- `rmwMaster` writes `f masterReg` to the master's data port and leaves it
in both the register and the cache; the slave's fields are untouched. -/
theorem rmwMaster_eq (f : Nat → Nat) (p : Pic) (hf : f p.masterReg < 256) :
    (rmwMaster f p).1
      = { p with masterReg := f p.masterReg, irqMask0 := f p.masterReg }
    ∧ (rmwMaster f p).2 = [⟨PIC1 + 1, f p.masterReg⟩] := by
  obtain ⟨a, b, c, d⟩ := p
  constructor
  · simp [rmwMaster, inp, outp, PIC1, PIC2, Nat.mod_eq_of_lt hf]
  · rfl

/-- `rmwSlave` writes `f slaveReg` to the slave's data port and leaves it in
both the register and the cache; the master's fields are untouched. -/
theorem rmwSlave_eq (f : Nat → Nat) (p : Pic) (hf : f p.slaveReg < 256) :
    (rmwSlave f p).1
      = { p with slaveReg := f p.slaveReg, irqMask1 := f p.slaveReg }
    ∧ (rmwSlave f p).2 = [⟨PIC2 + 1, f p.slaveReg⟩] := by
  obtain ⟨a, b, c, d⟩ := p
  constructor
  · simp [rmwSlave, inp, outp, PIC1, PIC2, Nat.mod_eq_of_lt hf]
  · rfl

/-- The cascade block never touches the slave's register or cache. -/
theorem cascade_slave_frame (p : Pic) :
    (cascade p).1.slaveReg = p.slaveReg
    ∧ (cascade p).1.irqMask1 = p.irqMask1 := by
  simp only [cascade]
  split
  · exact ⟨rfl, rfl⟩
  · split
    · exact ⟨rfl, rfl⟩
    · exact ⟨rfl, rfl⟩

/-- `enable` at a master-range vector with the line currently disabled in the
cache and `enable = true` clears the line's bit in the master register and
cache. -/
theorem enable_master_clear (k : Nat) (hk : k < 8) (p : Pic)
    (hbit : p.irqMask0 &&& ((1 <<< k) % 256) ≠ 0) :
    (enable (PIC1_BASE + k) true p).1
      = { p with
            masterReg := p.masterReg &&& (255 ^^^ (1 <<< k) % 256),
            irqMask0 := p.masterReg &&& (255 ^^^ (1 <<< k) % 256) } := by
  have hrange : PIC1_BASE ≤ PIC1_BASE + k ∧ PIC1_BASE + k < PIC1_BASE + 8 := by
    constructor <;> omega
  have hlt : p.masterReg &&& (255 ^^^ (1 <<< k) % 256) < 256 :=
    Nat.lt_of_le_of_lt Nat.and_le_right (maskByte_lt k hk)
  simp only [enable, if_pos hrange, Nat.add_sub_cancel_left]
  split
  · exact (rmwMaster_eq (fun m => m &&& (255 ^^^ (1 <<< k) % 256)) p hlt).1
  · simp_all

/-- `enable` at a master-range vector with the line currently enabled in the
cache and `enable = false` sets the line's bit in the master register and
cache. -/
theorem enable_master_set (k : Nat) (hk : k < 8) (p : Pic)
    (hbit : p.irqMask0 &&& ((1 <<< k) % 256) = 0) (hm : p.masterReg < 256) :
    (enable (PIC1_BASE + k) false p).1
      = { p with
            masterReg := p.masterReg ||| ((1 <<< k) % 256),
            irqMask0 := p.masterReg ||| ((1 <<< k) % 256) } := by
  have hrange : PIC1_BASE ≤ PIC1_BASE + k ∧ PIC1_BASE + k < PIC1_BASE + 8 := by
    constructor <;> omega
  have hlt : p.masterReg ||| ((1 <<< k) % 256) < 256 :=
    Nat.or_lt_two_pow (n := 8) hm (Nat.mod_lt _ (by decide))
  simp only [enable, if_pos hrange, Nat.add_sub_cancel_left]
  split
  · simp_all
  · split
    · exact (rmwMaster_eq (fun m => m ||| ((1 <<< k) % 256)) p hlt).1
    · simp_all

/-- `enable` at a slave-range vector with the line currently disabled in the
cache and `enable = true` clears the line's bit in the slave register and
cache (whatever the cascade block then does to the master). -/
theorem enable_slave_clear (k : Nat) (hk : k < 8) (p : Pic)
    (hbit : p.irqMask1 &&& ((1 <<< k) % 256) ≠ 0) :
    (enable (PIC2_BASE + k) true p).1.slaveReg
      = p.slaveReg &&& (255 ^^^ (1 <<< k) % 256)
    ∧ (enable (PIC2_BASE + k) true p).1.irqMask1
      = p.slaveReg &&& (255 ^^^ (1 <<< k) % 256) := by
  have hr1 : ¬(PIC1_BASE ≤ PIC2_BASE + k ∧ PIC2_BASE + k < PIC1_BASE + 8) := by
    simp only [PIC1_BASE, PIC2_BASE]
    omega
  have hr2 : PIC2_BASE ≤ PIC2_BASE + k ∧ PIC2_BASE + k < PIC2_BASE + 8 := by
    constructor <;> omega
  have hlt : p.slaveReg &&& (255 ^^^ (1 <<< k) % 256) < 256 :=
    Nat.lt_of_le_of_lt Nat.and_le_right (maskByte_lt k hk)
  simp only [enable, if_neg hr1, if_pos hr2, Nat.add_sub_cancel_left]
  split
  · rw [(rmwSlave_eq (fun m => m &&& (255 ^^^ (1 <<< k) % 256)) p hlt).1]
    exact ⟨(cascade_slave_frame _).1, (cascade_slave_frame _).2⟩
  · simp_all

/-- `enable` at a slave-range vector with the line currently enabled in the
cache and `enable = false` sets the line's bit in the slave register and
cache (whatever the cascade block then does to the master). -/
theorem enable_slave_set (k : Nat) (hk : k < 8) (p : Pic)
    (hbit : p.irqMask1 &&& ((1 <<< k) % 256) = 0) (hs : p.slaveReg < 256) :
    (enable (PIC2_BASE + k) false p).1.slaveReg
      = p.slaveReg ||| ((1 <<< k) % 256)
    ∧ (enable (PIC2_BASE + k) false p).1.irqMask1
      = p.slaveReg ||| ((1 <<< k) % 256) := by
  have hr1 : ¬(PIC1_BASE ≤ PIC2_BASE + k ∧ PIC2_BASE + k < PIC1_BASE + 8) := by
    simp only [PIC1_BASE, PIC2_BASE]
    omega
  have hr2 : PIC2_BASE ≤ PIC2_BASE + k ∧ PIC2_BASE + k < PIC2_BASE + 8 := by
    constructor <;> omega
  have hlt : p.slaveReg ||| ((1 <<< k) % 256) < 256 :=
    Nat.or_lt_two_pow (n := 8) hs (Nat.mod_lt _ (by decide))
  simp only [enable, if_neg hr1, if_pos hr2, Nat.add_sub_cancel_left]
  split
  · simp_all
  · split
    · rw [(rmwSlave_eq (fun m => m ||| ((1 <<< k) % 256)) p hlt).1]
      exact ⟨(cascade_slave_frame _).1, (cascade_slave_frame _).2⟩
    · simp_all

/-- For an in-range vector, `mask_interrupt` updates the PIC state through
`enable(vector, false)`. -/
theorem mask_interrupt_pic (v : Nat) (s : IntState) (hv : ¬(v ≥ INT_VECTORS)) :
    (mask_interrupt v s).2.1.pic = (enable v false s.pic).1 := by
  unfold mask_interrupt
  rw [if_neg hv]

/-- For an in-range vector, `unmask_interrupt` updates the PIC state through
`enable(vector, true)`. -/
theorem unmask_interrupt_pic (v : Nat) (s : IntState)
    (hv : ¬(v ≥ INT_VECTORS)) :
    (unmask_interrupt v s).2.1.pic = (enable v true s.pic).1 := by
  unfold unmask_interrupt
  rw [if_neg hv]

/-- C4 (amended): for a hardware-backed vector whose line is currently
disabled (its bit set in the owning controller's cached mask), with the cache
in sync with the 8-bit register, `unmask_interrupt(v)` then
`mask_interrupt(v)` restores the owning controller's mask register and cached
byte to their pre-unmask values. -/
theorem C4_unmask_mask_roundtrip (v : Nat) (s : IntState)
    (hsync0 : s.pic.irqMask0 = s.pic.masterReg)
    (hsync1 : s.pic.irqMask1 = s.pic.slaveReg)
    (hm : s.pic.masterReg < 256) (hs : s.pic.slaveReg < 256) :
    (PIC1_BASE ≤ v → v < PIC1_BASE + 8 →
      s.pic.irqMask0 &&& ((1 <<< (v - PIC1_BASE)) % 256) ≠ 0 →
      ((mask_interrupt v (unmask_interrupt v s).2.1).2.1.pic.masterReg
          = s.pic.masterReg
        ∧ (mask_interrupt v (unmask_interrupt v s).2.1).2.1.pic.irqMask0
          = s.pic.irqMask0))
    ∧ (PIC2_BASE ≤ v → v < PIC2_BASE + 8 →
      s.pic.irqMask1 &&& ((1 <<< (v - PIC2_BASE)) % 256) ≠ 0 →
      ((mask_interrupt v (unmask_interrupt v s).2.1).2.1.pic.slaveReg
          = s.pic.slaveReg
        ∧ (mask_interrupt v (unmask_interrupt v s).2.1).2.1.pic.irqMask1
          = s.pic.irqMask1)) := by
  constructor
  · intro h1 h2 hbit
    obtain ⟨k, hk, rfl⟩ : ∃ k, k < 8 ∧ v = PIC1_BASE + k := by
      refine ⟨v - PIC1_BASE, ?_, ?_⟩ <;>
        simp only [PIC1_BASE] at h1 h2 ⊢ <;> omega
    simp only [Nat.add_sub_cancel_left] at hbit
    have hv : ¬(PIC1_BASE + k ≥ INT_VECTORS) := by
      simp only [PIC1_BASE, INT_VECTORS]
      omega
    have hbitReg : s.pic.masterReg &&& ((1 <<< k) % 256) ≠ 0 := by
      rw [← hsync0]
      exact hbit
    rw [mask_interrupt_pic _ _ hv, unmask_interrupt_pic _ _ hv,
      enable_master_clear k hk s.pic hbit,
      enable_master_set k hk
        { s.pic with
            masterReg := s.pic.masterReg &&& (255 ^^^ (1 <<< k) % 256),
            irqMask0 := s.pic.masterReg &&& (255 ^^^ (1 <<< k) % 256) }
        (cleared_bit s.pic.masterReg k hk)
        (Nat.lt_of_le_of_lt Nat.and_le_right (maskByte_lt k hk))]
    constructor
    · exact restore_bit _ hm _ hk hbitReg
    · rw [hsync0]
      exact restore_bit _ hm _ hk hbitReg
  · intro h1 h2 hbit
    obtain ⟨k, hk, rfl⟩ : ∃ k, k < 8 ∧ v = PIC2_BASE + k := by
      refine ⟨v - PIC2_BASE, ?_, ?_⟩ <;>
        simp only [PIC2_BASE] at h1 h2 ⊢ <;> omega
    simp only [Nat.add_sub_cancel_left] at hbit
    have hv : ¬(PIC2_BASE + k ≥ INT_VECTORS) := by
      simp only [PIC2_BASE, INT_VECTORS]
      omega
    have hbitReg : s.pic.slaveReg &&& ((1 <<< k) % 256) ≠ 0 := by
      rw [← hsync1]
      exact hbit
    rw [mask_interrupt_pic _ _ hv, unmask_interrupt_pic _ _ hv]
    have hc1 := enable_slave_clear k hk s.pic hbit
    have hb2 : ((enable (PIC2_BASE + k) true s.pic).1).irqMask1
        &&& ((1 <<< k) % 256) = 0 := by
      rw [hc1.2]
      exact cleared_bit s.pic.slaveReg k hk
    have hs2 : ((enable (PIC2_BASE + k) true s.pic).1).slaveReg < 256 := by
      rw [hc1.1]
      exact Nat.lt_of_le_of_lt Nat.and_le_right (maskByte_lt k hk)
    have hc2 := enable_slave_set k hk ((enable (PIC2_BASE + k) true s.pic).1)
      hb2 hs2
    constructor
    · rw [hc2.1, hc1.1]
      exact restore_bit _ hs _ hk hbitReg
    · rw [hc2.2, hc1.1, hsync1]
      exact restore_bit _ hs _ hk hbitReg

/-- Witness for C4 (amended) at master vector 0x20 from the boot state, where
line 0 is masked. -/
theorem C4_unmask_mask_roundtrip_witness :
    (mask_interrupt 0x20 (unmask_interrupt 0x20 initState).2.1).2.1.pic.masterReg
      = initState.pic.masterReg
    ∧ (mask_interrupt 0x20 (unmask_interrupt 0x20 initState).2.1).2.1.pic.irqMask0
      = initState.pic.irqMask0 :=
  (C4_unmask_mask_roundtrip 0x20 initState (by decide) (by decide) (by decide)
    (by decide)).1 (by decide) (by decide) (by decide)

/-- C5 (amended): for every vector at or above the first hardware-usable
vector 0x20 and below `INT_VECTORS`, registering handler `h` with context
`ctx` and then dispatching that vector invokes `h` exactly once with `ctx`
(the dispatch trace is the single handler invocation followed by the EOI port
writes), and the reschedule decision returned is `h ctx`. -/
theorem C5_register_then_dispatch (v : Nat) (hfun : Nat → HandlerReturn)
    (ctx : Nat) (s : IntState) (h1 : 0x20 ≤ v) (h2 : v < INT_VECTORS)
    (hlen : s.handlers.length = INT_VECTORS) :
    (register_int_handler v (some hfun) ctx s).bind (platform_irq v)
      = some (hfun ctx,
          Event.callHandler ctx :: (issueEOI v).map Event.out) := by
  have hv : ¬(v ≥ INT_VECTORS) := by omega
  have hlt : ¬(v < 0x20) := by omega
  simp only [register_int_handler, if_neg hv, Option.some_bind]
  simp only [platform_irq, if_neg hlt]
  have hvlen : v < s.handlers.length := by omega
  rw [List.getD_eq_getElem?_getD,
    List.getElem?_set_self (by simpa using hvlen)]
  rfl

/-- Witness for C5 (amended) at vector 0x21 with a no-reschedule handler and
context 5, from the boot state. -/
theorem C5_register_then_dispatch_witness :
    (register_int_handler 0x21 (some (fun _ => HandlerReturn.noReschedule)) 5
        initState).bind (platform_irq 0x21)
      = some (HandlerReturn.noReschedule,
          [Event.callHandler 5, Event.out ⟨PIC1, 0x20⟩]) :=
  C5_register_then_dispatch 0x21 (fun _ => HandlerReturn.noReschedule) 5
    initState (by decide) (by decide) (by decide)

/-- `enable` of a master-range vector never touches the slave's register or
cache, whichever branch runs. -/
theorem enable_master_slave_frame (v : Nat) (en : Bool) (p : Pic)
    (h : PIC1_BASE ≤ v ∧ v < PIC1_BASE + 8) :
    (enable v en p).1.slaveReg = p.slaveReg
    ∧ (enable v en p).1.irqMask1 = p.irqMask1 := by
  simp only [enable, if_pos h]
  split
  · exact ⟨rfl, rfl⟩
  · split
    · exact ⟨rfl, rfl⟩
    · exact ⟨rfl, rfl⟩

/-- Clearing bit 2 of an 8-bit value changes nothing outside bit 2. -/
theorem cascade_clear_arith :
    ∀ m < 256, ((m &&& (255 ^^^ 4)) % 256) &&& 251 = m &&& 251
      ∧ (m &&& (255 ^^^ 4)) % 256 < 256 := by
  decide

/-- Setting bit 2 of an 8-bit value changes nothing outside bit 2. -/
theorem cascade_set_arith :
    ∀ m < 256, ((m ||| 4) % 256) &&& 251 = m &&& 251
      ∧ (m ||| 4) % 256 < 256 := by
  decide

/-- The cascade block can change the master's register only at the cascade
bit (bit 2), keeps it 8-bit, and leaves the cache equal to the register. -/
theorem cascade_master_bit (p : Pic) (h0 : p.irqMask0 = p.masterReg)
    (hm : p.masterReg < 256) :
    (cascade p).1.masterReg &&& 251 = p.masterReg &&& 251
    ∧ (cascade p).1.masterReg < 256
    ∧ (cascade p).1.irqMask0 = (cascade p).1.masterReg := by
  simp only [cascade]
  split
  · exact ⟨(cascade_clear_arith p.masterReg hm).1,
      (cascade_clear_arith p.masterReg hm).2, rfl⟩
  · split
    · exact ⟨(cascade_set_arith p.masterReg hm).1,
        (cascade_set_arith p.masterReg hm).2, rfl⟩
    · exact ⟨rfl, hm, h0⟩

/-- `enable` of a slave-range vector can change the master's register only at
the cascade bit, keeps it 8-bit, and leaves the master cache equal to the
master register. -/
theorem enable_slave_master_bit (v : Nat) (en : Bool) (p : Pic)
    (hr1 : ¬(PIC1_BASE ≤ v ∧ v < PIC1_BASE + 8))
    (hr2 : PIC2_BASE ≤ v ∧ v < PIC2_BASE + 8)
    (h0 : p.irqMask0 = p.masterReg) (hm : p.masterReg < 256) :
    (enable v en p).1.masterReg &&& 251 = p.masterReg &&& 251
    ∧ (enable v en p).1.masterReg < 256
    ∧ (enable v en p).1.irqMask0 = (enable v en p).1.masterReg := by
  simp only [enable, if_neg hr1, if_pos hr2]
  split
  · exact cascade_master_bit _ h0 hm
  · split
    · exact cascade_master_bit _ h0 hm
    · exact cascade_master_bit _ h0 hm

/-- `mask_interrupt` never touches the handler table. -/
theorem mask_interrupt_handlers (v : Nat) (s : IntState) :
    (mask_interrupt v s).2.1.handlers = s.handlers := by
  unfold mask_interrupt
  split
  · rfl
  · rfl

/-- `unmask_interrupt` never touches the handler table. -/
theorem unmask_interrupt_handlers (v : Nat) (s : IntState) :
    (unmask_interrupt v s).2.1.handlers = s.handlers := by
  unfold unmask_interrupt
  split
  · rfl
  · rfl

/-- C10: mask/unmask of a master-range vector never touches the slave
controller's register or cache; mask/unmask of a slave-range vector can
change the master's 8-bit register and cache only at bit 2 (the cascade
bit); and neither call ever modifies the handler table. -/
theorem C10_mask_isolation (v : Nat) (s : IntState)
    (hsync0 : s.pic.irqMask0 = s.pic.masterReg)
    (hm : s.pic.masterReg < 256) :
    (PIC1_BASE ≤ v ∧ v < PIC1_BASE + 8 →
      ((mask_interrupt v s).2.1.pic.slaveReg = s.pic.slaveReg
        ∧ (mask_interrupt v s).2.1.pic.irqMask1 = s.pic.irqMask1
        ∧ (unmask_interrupt v s).2.1.pic.slaveReg = s.pic.slaveReg
        ∧ (unmask_interrupt v s).2.1.pic.irqMask1 = s.pic.irqMask1))
    ∧ (PIC2_BASE ≤ v ∧ v < PIC2_BASE + 8 →
      ((mask_interrupt v s).2.1.pic.masterReg &&& 251
          = s.pic.masterReg &&& 251
        ∧ (mask_interrupt v s).2.1.pic.masterReg < 256
        ∧ (mask_interrupt v s).2.1.pic.irqMask0 &&& 251
          = s.pic.irqMask0 &&& 251
        ∧ (unmask_interrupt v s).2.1.pic.masterReg &&& 251
          = s.pic.masterReg &&& 251
        ∧ (unmask_interrupt v s).2.1.pic.masterReg < 256
        ∧ (unmask_interrupt v s).2.1.pic.irqMask0 &&& 251
          = s.pic.irqMask0 &&& 251))
    ∧ ((mask_interrupt v s).2.1.handlers = s.handlers
        ∧ (unmask_interrupt v s).2.1.handlers = s.handlers) := by
  refine ⟨fun h => ?_, fun h => ?_,
    mask_interrupt_handlers v s, unmask_interrupt_handlers v s⟩
  · have hv : ¬(v ≥ INT_VECTORS) := by
      simp only [PIC1_BASE] at h
      simp only [INT_VECTORS]
      omega
    rw [mask_interrupt_pic _ _ hv, unmask_interrupt_pic _ _ hv]
    exact ⟨(enable_master_slave_frame v false s.pic h).1,
      (enable_master_slave_frame v false s.pic h).2,
      (enable_master_slave_frame v true s.pic h).1,
      (enable_master_slave_frame v true s.pic h).2⟩
  · have hv : ¬(v ≥ INT_VECTORS) := by
      simp only [PIC2_BASE] at h
      simp only [INT_VECTORS]
      omega
    have hr1 : ¬(PIC1_BASE ≤ v ∧ v < PIC1_BASE + 8) := by
      simp only [PIC2_BASE] at h
      simp only [PIC1_BASE]
      omega
    rw [mask_interrupt_pic _ _ hv, unmask_interrupt_pic _ _ hv]
    have hbF := enable_slave_master_bit v false s.pic hr1 h hsync0 hm
    have hbT := enable_slave_master_bit v true s.pic hr1 h hsync0 hm
    refine ⟨hbF.1, hbF.2.1, ?_, hbT.1, hbT.2.1, ?_⟩
    · rw [hbF.2.2, hbF.1, hsync0]
    · rw [hbT.2.2, hbT.1, hsync0]

/-- Witness for C10 at the slave-range vector 0x28 from the boot state. -/
theorem C10_mask_isolation_witness :
    (mask_interrupt 0x28 initState).2.1.pic.masterReg &&& 251
      = initState.pic.masterReg &&& 251
    ∧ (mask_interrupt 0x28 initState).2.1.handlers = initState.handlers :=
  ⟨((C10_mask_isolation 0x28 initState (by decide) (by decide)).2.1
      (by decide)).1,
   (C10_mask_isolation 0x28 initState (by decide) (by decide)).2.2.1⟩

/-- A master read–modify–write re-establishes the sync invariant. -/
theorem rmwMaster_sync (f : Nat → Nat) (p : Pic) (h : PicSync p) :
    PicSync (rmwMaster f p).1 :=
  ⟨rfl, h.2.1, Nat.mod_lt _ (by decide), h.2.2.2⟩

/-- A slave read–modify–write re-establishes the sync invariant. -/
theorem rmwSlave_sync (f : Nat → Nat) (p : Pic) (h : PicSync p) :
    PicSync (rmwSlave f p).1 :=
  ⟨h.1, rfl, h.2.2.1, Nat.mod_lt _ (by decide)⟩

/-- The cascade block preserves the sync invariant. -/
theorem cascade_sync (p : Pic) (h : PicSync p) : PicSync (cascade p).1 := by
  simp only [cascade]
  split
  · exact rmwMaster_sync _ p h
  · split
    · exact rmwMaster_sync _ p h
    · exact h

/-- `enable` preserves the sync invariant, whatever branch runs. -/
theorem enable_sync (v : Nat) (en : Bool) (p : Pic) (h : PicSync p) :
    PicSync (enable v en p).1 := by
  simp only [enable]
  split
  · split
    · exact rmwMaster_sync _ p h
    · split
      · exact rmwMaster_sync _ p h
      · exact h
  · split
    · split
      · exact cascade_sync _ (rmwSlave_sync _ p h)
      · split
        · exact cascade_sync _ (rmwSlave_sync _ p h)
        · exact cascade_sync _ h
    · exact h

/-- The boot state satisfies the sync invariant. -/
theorem initState_sync : PicSync initState.pic :=
  ⟨rfl, rfl, by decide, by decide⟩

/-- `mask_interrupt` preserves the sync invariant. -/
theorem mask_interrupt_sync (v : Nat) (s : IntState) (h : PicSync s.pic) :
    PicSync (mask_interrupt v s).2.1.pic := by
  unfold mask_interrupt
  split
  · exact h
  · exact enable_sync v false s.pic h

/-- `unmask_interrupt` preserves the sync invariant. -/
theorem unmask_interrupt_sync (v : Nat) (s : IntState) (h : PicSync s.pic) :
    PicSync (unmask_interrupt v s).2.1.pic := by
  unfold unmask_interrupt
  split
  · exact h
  · exact enable_sync v true s.pic h

end PcPic
